import Mathlib

/-!
Verification of bowser-raylib-utils: generic math vectors, the camera-shake
helper and the persistent multi-buffer GPU transfer ring.

Machine floating-point arithmetic is modelled by exact arithmetic (`ℚ` where
the claims are computational, `ℝ` where square roots appear): the claims under
study concern the structure of the computations (which operand feeds which
quotient, an epsilon added to a divisor, clamping at zero), not rounding.
-/

namespace bowser_util

/-- The 2-component vector of `types/vector/vector2.h`. -/
structure _baseVec2 (α : Type) where
  x : α
  y : α
deriving DecidableEq

/-- The 3-component vector of `types/vector/vector3.h`. -/
structure _baseVec3 (α : Type) where
  x : α
  y : α
  z : α
deriving DecidableEq

/-- The 4-component vector of `types/vector/vector4.h`. -/
structure _baseVec4 (α : Type) where
  x : α
  y : α
  z : α
  w : α
deriving DecidableEq

/-- The floating-point `operator%=` of vector2.h (lines 291-296).  Its C++
parameter `lhs` is taken by value, so the function returns the modified copy;
the assignments happen in source order, so the second line reads the already
reassigned `lhs.x`. -/
def modAssign2 (lhs : _baseVec2 ℚ) (rhs : ℚ) : _baseVec2 ℚ :=
  let x1 : ℚ := lhs.x - rhs * (⌊lhs.x / rhs⌋ : ℤ)
  let y1 : ℚ := lhs.y - rhs * (⌊x1 / rhs⌋ : ℤ)
  ⟨x1, y1⟩

/-- The floating-point `operator%=` of vector3.h (lines 278-284): x is wrapped
first, the y line reads the already reassigned x, the z line reads z itself. -/
def modAssign3 (lhs : _baseVec3 ℚ) (rhs : ℚ) : _baseVec3 ℚ :=
  let x1 : ℚ := lhs.x - rhs * (⌊lhs.x / rhs⌋ : ℤ)
  let y1 : ℚ := lhs.y - rhs * (⌊x1 / rhs⌋ : ℤ)
  let z1 : ℚ := lhs.z - rhs * (⌊lhs.z / rhs⌋ : ℤ)
  ⟨x1, y1, z1⟩

/-- The floating-point `operator%=` of vector4.h (lines 255-262): x is wrapped
first, the y line reads the already reassigned x, the z and w lines read their
own components. -/
def modAssign4 (lhs : _baseVec4 ℚ) (rhs : ℚ) : _baseVec4 ℚ :=
  let x1 : ℚ := lhs.x - rhs * (⌊lhs.x / rhs⌋ : ℤ)
  let y1 : ℚ := lhs.y - rhs * (⌊x1 / rhs⌋ : ℤ)
  let z1 : ℚ := lhs.z - rhs * (⌊lhs.z / rhs⌋ : ℤ)
  let w1 : ℚ := lhs.w - rhs * (⌊lhs.w / rhs⌋ : ℤ)
  ⟨x1, y1, z1, w1⟩

/-- The binary `operator%` of vector2.h: it executes `lhs %= rhs; return lhs;`,
but `operator%=` receives its left operand by value (unlike `+=` etc., which
take a reference), so the wrapped vector it returns is discarded and the
unmodified `lhs` is returned. -/
def mod2 (lhs : _baseVec2 ℚ) (rhs : ℚ) : _baseVec2 ℚ :=
  let _discarded := modAssign2 lhs rhs
  lhs

/-- The binary `operator%` of vector3.h; same by-value discard as `mod2`. -/
def mod3 (lhs : _baseVec3 ℚ) (rhs : ℚ) : _baseVec3 ℚ :=
  let _discarded := modAssign3 lhs rhs
  lhs

/-- The binary `operator%` of vector4.h; same by-value discard as `mod2`. -/
def mod4 (lhs : _baseVec4 ℚ) (rhs : ℚ) : _baseVec4 ℚ :=
  let _discarded := modAssign4 lhs rhs
  lhs

/-- The `0.000001f` constant added to the length in `normalize`. -/
noncomputable def eps : ℝ := 1 / 1000000

/-- `lengthSqr` of vector2.h, line 60. -/
noncomputable def lengthSqr2 (v : _baseVec2 ℝ) : ℝ := v.x * v.x + v.y * v.y

/-- `length` of vector2.h, line 59. -/
noncomputable def length2 (v : _baseVec2 ℝ) : ℝ := Real.sqrt (lengthSqr2 v)

/-- `normalize` of vector2.h, lines 85-89: divides each component by
`length() + 0.000001f`. -/
noncomputable def normalize2 (v : _baseVec2 ℝ) : _baseVec2 ℝ :=
  let len : ℝ := length2 v + eps
  ⟨v.x / len, v.y / len⟩

/-- `lengthSqr` of vector3.h. -/
noncomputable def lengthSqr3 (v : _baseVec3 ℝ) : ℝ :=
  v.x * v.x + v.y * v.y + v.z * v.z

/-- `length` of vector3.h. -/
noncomputable def length3 (v : _baseVec3 ℝ) : ℝ := Real.sqrt (lengthSqr3 v)

/-- `normalize` of vector3.h, lines 89-93. -/
noncomputable def normalize3 (v : _baseVec3 ℝ) : _baseVec3 ℝ :=
  let len : ℝ := length3 v + eps
  ⟨v.x / len, v.y / len, v.z / len⟩

/-- `lengthSqr` of vector4.h. -/
noncomputable def lengthSqr4 (v : _baseVec4 ℝ) : ℝ :=
  v.x * v.x + v.y * v.y + v.z * v.z + v.w * v.w

/-- `length` of vector4.h. -/
noncomputable def length4 (v : _baseVec4 ℝ) : ℝ := Real.sqrt (lengthSqr4 v)

/-- `normalize` of vector4.h, lines 93-97. -/
noncomputable def normalize4 (v : _baseVec4 ℝ) : _baseVec4 ℝ :=
  let len : ℝ := length4 v + eps
  ⟨v.x / len, v.y / len, v.z / len, v.w / len⟩

/-- Raylib's plain `Vector2` (a pair of floats), used by the camera. -/
structure Vector2 where
  x : ℚ
  y : ℚ
deriving DecidableEq

/-- The state of `Camera2DExtended` (camera_extra.h). -/
structure Camera2DExtended where
  offset : Vector2
  target : Vector2
  rotation : ℚ
  zoom : ℚ
  trauma : ℚ
  rotationTrauma : ℚ
  offsetTrauma : Vector2
deriving DecidableEq

/-- `Camera2DExtended::tick` (camera_extra.h, lines 23-35).  The three
`stb_perlin_fbm_noise3` samples depend on the wall clock, so they enter the
model as parameters `noiseR`, `noiseX`, `noiseY`.  When `trauma > 0` the code
first clamps `trauma - 0.02` at zero, then computes `scale` from the updated
trauma and refreshes the two shake fields; otherwise it does nothing. -/
def tick (c : Camera2DExtended) (noiseR noiseX noiseY : ℚ) : Camera2DExtended :=
  if 0 < c.trauma then
    let trauma1 : ℚ := max 0 (c.trauma - 2 / 100)
    let scale : ℚ := trauma1 * trauma1
    { c with
      trauma := trauma1
      rotationTrauma := scale * noiseR
      offsetTrauma := ⟨scale * 30 * noiseX, scale * 30 * noiseY⟩ }
  else c

/-- Modelled from the spec: the usage-hint tag of `PersistentBuffer`
(`PBFlags` in the README); the implementation header is not in the sources. -/
inductive PBFlags where
  | NONE
  | READ
  | WRITE
  | READ_AND_WRITE
  | WRITE_ALT_READ
  | READ_ALT_WRITE
deriving DecidableEq

/-- Modelled from the spec: one BufferSlot of the ring — a device buffer
handle, a host-visible mapped pointer (an abstract address), and a nullable
pending-transfer fence handle.  The implementation header is not in the
sources; §3 of the design document describes the slot. -/
structure BufferSlot where
  bufId : Nat
  ptr : Nat
  fence : Option Nat
deriving DecidableEq

/-- Modelled from the spec: the state of a `PersistentBuffer` ring — the
buffer target tag, the per-slot byte size, the usage hint, the ordered slots,
the cycle counter, a counter handing out fresh fence handles, and the list of
fence handles released so far (§3, §4 of the design document).  The
implementation header is not in the sources. -/
structure PersistentBuffer where
  target : Nat
  byteSize : Nat
  rwFlag : PBFlags
  slots : List BufferSlot
  cycle : Nat
  nextFence : Nat
  released : List Nat
deriving DecidableEq

/-- Modelled from the spec: ring construction (§4.1) — allocates
`bufferCount` device buffers (distinct handles, distinct mapped addresses),
cycle counter at 0, no slot flagged pending.  `firstId` abstracts the first
handle the device hands out. -/
def mkPersistentBuffer (bufferCount target byteSize : Nat) (flag : PBFlags)
    (firstId : Nat) : PersistentBuffer :=
  { target := target
    byteSize := byteSize
    rwFlag := flag
    slots := (List.range bufferCount).map
      (fun k => { bufId := firstId + k, ptr := firstId + bufferCount + k, fence := none })
    cycle := 0
    nextFence := 0
    released := [] }

/-- Modelled from the spec: the default/placeholder construction (§4.1) — a
ring with no device resources. -/
def emptyPB : PersistentBuffer :=
  { target := 0, byteSize := 0, rwFlag := PBFlags.NONE, slots := [], cycle := 0
    nextFence := 0, released := [] }

/-- `getBufferCount()` — the number of slots. -/
def getBufferCount (r : PersistentBuffer) : Nat := r.slots.length

/-- Modelled from the spec: `resolve(i)` returns `(i + cycle) mod bufferCount`
(§4.2). -/
def resolve (r : PersistentBuffer) (i : Nat) : Nat :=
  (i + r.cycle) % getBufferCount r

/-- Replace the fence of the slot at raw index `j` (helper for `lock` and
`wait`); out-of-range indices leave the list unchanged. -/
def setSlotFence : List BufferSlot → Nat → Option Nat → List BufferSlot
  | [], _, _ => []
  | s :: rest, 0, f => { s with fence := f } :: rest
  | s :: rest, Nat.succ j, f => s :: setSlotFence rest j f

/-- The fence stored at raw slot index `j` (`none` when idle or out of
range). -/
def slotFence (r : PersistentBuffer) (j : Nat) : Option Nat :=
  (r.slots[j]?).bind (fun s => s.fence)

/-- Modelled from the spec: `lock(i)` (§4.3) — stores a fresh fence for slot
`resolve(i)`, releasing (and recording as released) any fence already stored
there. -/
def lock (r : PersistentBuffer) (i : Nat) : PersistentBuffer :=
  { r with
    slots := setSlotFence r.slots (resolve r i) (some r.nextFence)
    nextFence := r.nextFence + 1
    released :=
      match slotFence r (resolve r i) with
      | some f => r.released ++ [f]
      | none => r.released }

/-- Modelled from the spec: the fence `wait(i)` blocks on — the fence stored
for slot `resolve(i)`, or `none` when `wait` returns immediately (§4.3). -/
def waitBlocksOn (r : PersistentBuffer) (i : Nat) : Option Nat :=
  slotFence r (resolve r i)

/-- Modelled from the spec: `wait(i)` (§4.3) — if a fence is stored for slot
`resolve(i)`, blocks until the device signals it, then releases and clears it;
otherwise returns immediately with no state change. -/
def wait (r : PersistentBuffer) (i : Nat) : PersistentBuffer :=
  match waitBlocksOn r i with
  | some f =>
      { r with
        slots := setSlotFence r.slots (resolve r i) none
        released := r.released ++ [f] }
  | none => r

/-- Modelled from the spec: `advance_cycle()` increments the cycle counter by
1 modulo `bufferCount` and touches nothing else (§4.4). -/
def advance_cycle (r : PersistentBuffer) : PersistentBuffer :=
  { r with cycle := (r.cycle + 1) % getBufferCount r }

/-- Modelled from the spec: `getId(i)` returns the device buffer handle of
slot `resolve(i)` (§4.5). -/
def getId (r : PersistentBuffer) (i : Nat) : Option Nat :=
  (r.slots[resolve r i]?).map (fun s => s.bufId)

/-- Modelled from the spec: `get<T>(i)` returns the host-mapped pointer of
slot `resolve(i)` (§4.5). -/
def get (r : PersistentBuffer) (i : Nat) : Option Nat :=
  (r.slots[resolve r i]?).map (fun s => s.ptr)

/-- The public ring operations, for stating which of them may block. -/
inductive PBOp where
  | lockOp : Nat → PBOp
  | waitOp : Nat → PBOp
  | advanceOp : PBOp
deriving DecidableEq

/-- Modelled from the spec: the fence an operation blocks on.  Only `wait`
may block the host thread (§5); `lock` and `advance_cycle` never do. -/
def opBlocksOn (r : PersistentBuffer) : PBOp → Option Nat
  | PBOp.lockOp _ => none
  | PBOp.waitOp i => waitBlocksOn r i
  | PBOp.advanceOp => none

/-- Modelled from the spec: move construction/assignment (§3, §9) — the
destination takes over the source's entire state and the source is left in
the empty placeholder state. -/
def moveFrom (b : PersistentBuffer) : PersistentBuffer × PersistentBuffer :=
  (b, emptyPB)

/-- Modelled from the spec: the device buffer handles the destructor
releases — one per owned slot (§3 lifecycle). -/
def releasedBuffers (r : PersistentBuffer) : List Nat :=
  r.slots.map (fun s => s.bufId)

/-! ### Helper lemmas about the ring model -/

theorem setSlotFence_length (l : List BufferSlot) (j : Nat) (f : Option Nat) :
    (setSlotFence l j f).length = l.length := by
  induction l generalizing j with
  | nil => rfl
  | cons s rest ih =>
    cases j with
    | zero => rfl
    | succ j => simp [setSlotFence, ih]

theorem setSlotFence_getElem_ne (l : List BufferSlot) (j k : Nat) (f : Option Nat)
    (h : k ≠ j) : (setSlotFence l j f)[k]? = l[k]? := by
  induction l generalizing j k with
  | nil => rfl
  | cons s rest ih =>
    cases j with
    | zero =>
      cases k with
      | zero => exact absurd rfl h
      | succ k => simp [setSlotFence]
    | succ j =>
      cases k with
      | zero => simp [setSlotFence]
      | succ k =>
        simpa [setSlotFence] using ih j k (fun hh => h (by rw [hh]))

theorem setSlotFence_getElem_self (l : List BufferSlot) (j : Nat) (f : Option Nat) :
    (setSlotFence l j f)[j]? = (l[j]?).map (fun s => { s with fence := f }) := by
  induction l generalizing j with
  | nil => rfl
  | cons s rest ih =>
    cases j with
    | zero => simp [setSlotFence]
    | succ j => simpa [setSlotFence] using ih j

theorem getBufferCount_lock (r : PersistentBuffer) (i : Nat) :
    getBufferCount (lock r i) = getBufferCount r :=
  setSlotFence_length r.slots (resolve r i) (some r.nextFence)

theorem resolve_lock (r : PersistentBuffer) (i j : Nat) :
    resolve (lock r i) j = resolve r j := by
  unfold resolve
  rw [getBufferCount_lock]
  rfl

theorem getBufferCount_wait (r : PersistentBuffer) (i : Nat) :
    getBufferCount (wait r i) = getBufferCount r := by
  unfold wait
  cases waitBlocksOn r i with
  | some f => exact setSlotFence_length r.slots (resolve r i) none
  | none => rfl

theorem resolve_wait (r : PersistentBuffer) (i j : Nat) :
    resolve (wait r i) j = resolve r j := by
  unfold resolve
  rw [getBufferCount_wait]
  unfold wait
  cases waitBlocksOn r i <;> rfl

theorem slotFence_lock_ne (r : PersistentBuffer) (i k : Nat)
    (h : k ≠ resolve r i) : slotFence (lock r i) k = slotFence r k := by
  unfold slotFence lock
  rw [setSlotFence_getElem_ne r.slots (resolve r i) k (some r.nextFence) h]

theorem slotFence_lock_self (r : PersistentBuffer) (i : Nat)
    (h : resolve r i < getBufferCount r) :
    slotFence (lock r i) (resolve r i) = some r.nextFence := by
  unfold slotFence lock
  rw [setSlotFence_getElem_self, List.getElem?_eq_getElem h]
  rfl

theorem slotFence_wait_ne (r : PersistentBuffer) (i k : Nat)
    (h : k ≠ resolve r i) : slotFence (wait r i) k = slotFence r k := by
  unfold wait
  cases waitBlocksOn r i with
  | some f =>
    unfold slotFence
    rw [setSlotFence_getElem_ne r.slots (resolve r i) k none h]
  | none => rfl

theorem slotFence_wait_resolve (r : PersistentBuffer) (i : Nat) :
    slotFence (wait r i) (resolve r i) = none := by
  cases hw : waitBlocksOn r i with
  | none =>
    have : wait r i = r := by unfold wait; rw [hw]
    rw [this]
    exact hw
  | some f =>
    unfold wait
    rw [hw]
    unfold slotFence
    rw [setSlotFence_getElem_self]
    cases r.slots[resolve r i]? <;> rfl

theorem wait_of_noFence (r : PersistentBuffer) (i : Nat)
    (h : waitBlocksOn r i = none) : wait r i = r := by
  unfold wait
  rw [h]

theorem mk_slotFence_none (bc t sz fid : Nat) (fl : PBFlags) (j : Nat) :
    slotFence (mkPersistentBuffer bc t sz fl fid) j = none := by
  unfold slotFence mkPersistentBuffer
  rw [List.getElem?_map]
  cases (List.range bc)[j]? <;> rfl

theorem advance_iterate_slots (r : PersistentBuffer) (k : Nat) :
    (advance_cycle^[k] r).slots = r.slots := by
  induction k with
  | zero => rfl
  | succ k ih => rw [Function.iterate_succ_apply', advance_cycle, ih]

theorem advance_iterate_cycle (r : PersistentBuffer)
    (h : r.cycle < getBufferCount r) (k : Nat) :
    (advance_cycle^[k] r).cycle = (r.cycle + k) % getBufferCount r := by
  induction k with
  | zero => simpa using (Nat.mod_eq_of_lt h).symm
  | succ k ih =>
    rw [Function.iterate_succ_apply']
    show ((advance_cycle^[k] r).cycle + 1) % getBufferCount (advance_cycle^[k] r) = _
    rw [show getBufferCount (advance_cycle^[k] r) = getBufferCount r from
      congrArg List.length (advance_iterate_slots r k), ih, Nat.mod_add_mod,
      Nat.add_assoc]

/-- A concrete ring used to instantiate the ring theorems: 3 slots,
`GL_SHADER_STORAGE_BUFFER`-like target tag 1, 64 bytes per slot. -/
def sampleRing : PersistentBuffer :=
  mkPersistentBuffer 3 1 64 PBFlags.WRITE 10

/-- Claim C1: for every ring, `resolve(i)` returns `(i + cycle) mod
bufferCount`, and every public operation that takes a logical index (`lock`,
`wait`, `get`, `getId`) addresses the slot at raw index
`(i + cycle) mod bufferCount`: `get`/`getId` read that slot, `lock` rewrites
that slot's fence and leaves every other raw index untouched, and `wait`
clears that slot's fence and leaves every other raw index untouched. -/
theorem C1_resolve_correct :
    (∀ (r : PersistentBuffer) (i : Nat),
        resolve r i = (i + r.cycle) % getBufferCount r)
    ∧ (∀ (r : PersistentBuffer) (i : Nat),
        getId r i = (r.slots[(i + r.cycle) % getBufferCount r]?).map
          (fun s => s.bufId))
    ∧ (∀ (r : PersistentBuffer) (i : Nat),
        get r i = (r.slots[(i + r.cycle) % getBufferCount r]?).map
          (fun s => s.ptr))
    ∧ (∀ (r : PersistentBuffer) (i : Nat),
        waitBlocksOn r i = slotFence r ((i + r.cycle) % getBufferCount r))
    ∧ (∀ (r : PersistentBuffer) (i k : Nat),
        k ≠ (i + r.cycle) % getBufferCount r →
        slotFence (lock r i) k = slotFence r k)
    ∧ (∀ (r : PersistentBuffer) (i : Nat),
        (i + r.cycle) % getBufferCount r < getBufferCount r →
        slotFence (lock r i) ((i + r.cycle) % getBufferCount r)
          = some r.nextFence)
    ∧ (∀ (r : PersistentBuffer) (i k : Nat),
        k ≠ (i + r.cycle) % getBufferCount r →
        slotFence (wait r i) k = slotFence r k)
    ∧ (∀ (r : PersistentBuffer) (i : Nat),
        slotFence (wait r i) ((i + r.cycle) % getBufferCount r) = none) :=
  ⟨fun _ _ => rfl, fun _ _ => rfl, fun _ _ => rfl, fun _ _ => rfl,
   fun r i k h => slotFence_lock_ne r i k h,
   fun r i h => slotFence_lock_self r i h,
   fun r i k h => slotFence_wait_ne r i k h,
   fun r i => slotFence_wait_resolve r i⟩

theorem C1_resolve_correct_witness :
    resolve sampleRing 5 = (5 + sampleRing.cycle) % getBufferCount sampleRing
    ∧ slotFence (lock sampleRing 0) 1 = slotFence sampleRing 1
    ∧ slotFence (lock sampleRing 0) 0 = some 0
    ∧ slotFence (wait sampleRing 0) 1 = slotFence sampleRing 1
    ∧ slotFence (wait sampleRing 0) 0 = none :=
  ⟨C1_resolve_correct.1 sampleRing 5,
   C1_resolve_correct.2.2.2.2.1 sampleRing 0 1 (by decide),
   C1_resolve_correct.2.2.2.2.2.1 sampleRing 0 (by decide),
   C1_resolve_correct.2.2.2.2.2.2.1 sampleRing 0 1 (by decide),
   C1_resolve_correct.2.2.2.2.2.2.2 sampleRing 0⟩

/-- Claim C2: with `bufferCount = N ≥ 1` slots, calling `advance_cycle()`
exactly N times returns the cycle counter to its original value, and
`resolve(i)` afterwards yields the same raw slot as before the N advances. -/
theorem C2_cycle_wraparound (r : PersistentBuffer)
    (_h1 : 1 ≤ getBufferCount r) (h2 : r.cycle < getBufferCount r) :
    (advance_cycle^[getBufferCount r] r).cycle = r.cycle
    ∧ ∀ i, resolve (advance_cycle^[getBufferCount r] r) i = resolve r i := by
  have hs := advance_iterate_slots r (getBufferCount r)
  have hcyc : (advance_cycle^[getBufferCount r] r).cycle = r.cycle := by
    rw [advance_iterate_cycle r h2 (getBufferCount r), Nat.add_mod_right]
    exact Nat.mod_eq_of_lt h2
  refine ⟨hcyc, fun i => ?_⟩
  unfold resolve
  rw [hcyc, show getBufferCount (advance_cycle^[getBufferCount r] r)
      = getBufferCount r from congrArg List.length hs]

theorem C2_cycle_wraparound_witness :
    (advance_cycle^[getBufferCount sampleRing] sampleRing).cycle
      = sampleRing.cycle
    ∧ resolve (advance_cycle^[getBufferCount sampleRing] sampleRing) 1
      = resolve sampleRing 1 :=
  ⟨(C2_cycle_wraparound sampleRing (by decide) (by decide)).1,
   (C2_cycle_wraparound sampleRing (by decide) (by decide)).2 1⟩

/-- Claim C3: at most one fence is outstanding per slot.  A freshly
constructed ring has no slot flagged pending; `lock(i)` on a slot with an
already-outstanding fence releases the earlier fence (it joins the released
list) and replaces it with the new one; after `lock(i); lock(i)` without an
intervening wait, `wait(i)` blocks on the second fence, never the first's. -/
theorem C3_at_most_one_fence :
    (∀ (bc t sz fid : Nat) (fl : PBFlags) (j : Nat),
        slotFence (mkPersistentBuffer bc t sz fl fid) j = none)
    ∧ (∀ (r : PersistentBuffer) (i : Nat), resolve r i < getBufferCount r →
        slotFence (lock r i) (resolve r i) = some r.nextFence
        ∧ slotFence (lock (lock r i) i) (resolve r i) = some (r.nextFence + 1)
        ∧ (lock (lock r i) i).released = (lock r i).released ++ [r.nextFence]
        ∧ waitBlocksOn (lock (lock r i) i) i = some (r.nextFence + 1)
        ∧ some (r.nextFence + 1) ≠ some r.nextFence) := by
  refine ⟨fun bc t sz fid fl j => mk_slotFence_none bc t sz fid fl j, ?_⟩
  intro r i h
  have hr : resolve (lock r i) i = resolve r i := resolve_lock r i i
  have h1 : slotFence (lock r i) (resolve r i) = some r.nextFence :=
    slotFence_lock_self r i h
  have h2 : slotFence (lock (lock r i) i) (resolve r i)
      = some (r.nextFence + 1) := by
    have hh := slotFence_lock_self (lock r i) i
      (by rw [hr, getBufferCount_lock]; exact h)
    rw [hr] at hh
    exact hh
  have key : slotFence (lock r i) (resolve (lock r i) i) = some r.nextFence := by
    rw [hr]
    exact h1
  refine ⟨h1, h2, ?_, ?_, by simp⟩
  · show (match slotFence (lock r i) (resolve (lock r i) i) with
      | some f => (lock r i).released ++ [f]
      | none => (lock r i).released) = (lock r i).released ++ [r.nextFence]
    rw [key]
  · show slotFence (lock (lock r i) i) (resolve (lock (lock r i) i) i)
      = some (r.nextFence + 1)
    rw [resolve_lock, resolve_lock]
    exact h2

theorem C3_at_most_one_fence_witness :
    slotFence (lock sampleRing 0) 0 = some 0
    ∧ slotFence (lock (lock sampleRing 0) 0) 0 = some 1
    ∧ (lock (lock sampleRing 0) 0).released = (lock sampleRing 0).released ++ [0]
    ∧ waitBlocksOn (lock (lock sampleRing 0) 0) 0 = some 1
    ∧ some 1 ≠ some 0 :=
  ⟨(C3_at_most_one_fence.2 sampleRing 0 (by decide)).1,
   (C3_at_most_one_fence.2 sampleRing 0 (by decide)).2.1,
   (C3_at_most_one_fence.2 sampleRing 0 (by decide)).2.2.1,
   (C3_at_most_one_fence.2 sampleRing 0 (by decide)).2.2.2.1,
   (C3_at_most_one_fence.2 sampleRing 0 (by decide)).2.2.2.2⟩

/-- Claim C4: `wait(i)` blocks until the stored fence is signalled and then
releases and clears it; with no stored fence it returns immediately with no
state change, so a second `wait(i)` in a row is safe and does not block. -/
theorem C4_wait_idempotent :
    (∀ (r : PersistentBuffer) (i : Nat),
        waitBlocksOn r i = none → wait r i = r)
    ∧ (∀ (r : PersistentBuffer) (i : Nat) (f : Nat),
        waitBlocksOn r i = some f →
        slotFence (wait r i) (resolve r i) = none
        ∧ (wait r i).released = r.released ++ [f])
    ∧ (∀ (r : PersistentBuffer) (i : Nat),
        waitBlocksOn (wait r i) i = none) := by
  refine ⟨fun r i h => wait_of_noFence r i h, ?_, ?_⟩
  · intro r i f hw
    refine ⟨slotFence_wait_resolve r i, ?_⟩
    unfold wait
    rw [hw]
  · intro r i
    show slotFence (wait r i) (resolve (wait r i) i) = none
    rw [resolve_wait]
    exact slotFence_wait_resolve r i

theorem C4_wait_idempotent_witness :
    wait sampleRing 0 = sampleRing
    ∧ slotFence (wait (lock sampleRing 0) 0) 0 = none
    ∧ (wait (lock sampleRing 0) 0).released
      = (lock sampleRing 0).released ++ [0]
    ∧ waitBlocksOn (wait (lock sampleRing 0) 0) 0 = none :=
  ⟨C4_wait_idempotent.1 sampleRing 0 (by decide),
   (C4_wait_idempotent.2.1 (lock sampleRing 0) 0 0 (by decide)).1,
   (C4_wait_idempotent.2.1 (lock sampleRing 0) 0 0 (by decide)).2,
   C4_wait_idempotent.2.2 (lock sampleRing 0) 0⟩

/-- Claim C5: with two slots resolving to distinct raw indices, locking both
and waiting on the second blocks only on the second slot's own fence (never
the first slot's still-pending fence, which survives the wait untouched);
moreover `lock` and `advance_cycle` never block — only `wait` can. -/
theorem C5_independent_waits (r : PersistentBuffer) (i j : Nat)
    (hne : resolve r i ≠ resolve r j)
    (hi : resolve r i < getBufferCount r)
    (hj : resolve r j < getBufferCount r) :
    waitBlocksOn (lock (lock r i) j) j = some (r.nextFence + 1)
    ∧ slotFence (lock (lock r i) j) (resolve r i) = some r.nextFence
    ∧ some (r.nextFence + 1) ≠ some r.nextFence
    ∧ slotFence (wait (lock (lock r i) j) j) (resolve r i) = some r.nextFence
    ∧ (∀ (s : PersistentBuffer) (k : Nat),
        opBlocksOn s (PBOp.lockOp k) = none)
    ∧ (∀ s : PersistentBuffer, opBlocksOn s PBOp.advanceOp = none) := by
  have h1 : slotFence (lock r i) (resolve r i) = some r.nextFence :=
    slotFence_lock_self r i hi
  have hrj : resolve (lock r i) j = resolve r j := resolve_lock r i j
  have h2 : slotFence (lock (lock r i) j) (resolve r j)
      = some (r.nextFence + 1) := by
    have hh := slotFence_lock_self (lock r i) j
      (by rw [hrj, getBufferCount_lock]; exact hj)
    rw [hrj] at hh
    exact hh
  have h3 : slotFence (lock (lock r i) j) (resolve r i) = some r.nextFence := by
    rw [slotFence_lock_ne (lock r i) j (resolve r i) (by rw [hrj]; exact hne)]
    exact h1
  have hne2 : resolve r i ≠ resolve (lock (lock r i) j) j := by
    rw [resolve_lock, resolve_lock]
    exact hne
  refine ⟨?_, h3, by simp, ?_, fun s k => rfl, fun s => rfl⟩
  · show slotFence (lock (lock r i) j) (resolve (lock (lock r i) j) j)
      = some (r.nextFence + 1)
    rw [resolve_lock, resolve_lock]
    exact h2
  · rw [slotFence_wait_ne (lock (lock r i) j) j (resolve r i) hne2]
    exact h3

theorem C5_independent_waits_witness :
    waitBlocksOn (lock (lock sampleRing 0) 1) 1 = some 1
    ∧ slotFence (lock (lock sampleRing 0) 1) (resolve sampleRing 0) = some 0
    ∧ slotFence (wait (lock (lock sampleRing 0) 1) 1) (resolve sampleRing 0)
      = some 0 :=
  ⟨(C5_independent_waits sampleRing 0 1 (by decide) (by decide) (by decide)).1,
   (C5_independent_waits sampleRing 0 1 (by decide) (by decide) (by decide)).2.1,
   (C5_independent_waits sampleRing 0 1 (by decide) (by decide)
      (by decide)).2.2.2.1⟩

/-- Claim C6: `advance_cycle()` increments the cycle counter by 1 modulo
`bufferCount` and changes nothing else — no slot (hence no fence and no
buffer contents), nor any other field, is modified by the call. -/
theorem C6_advance_frame (r : PersistentBuffer) :
    (advance_cycle r).cycle = (r.cycle + 1) % getBufferCount r
    ∧ (advance_cycle r).slots = r.slots
    ∧ (advance_cycle r).target = r.target
    ∧ (advance_cycle r).byteSize = r.byteSize
    ∧ (advance_cycle r).rwFlag = r.rwFlag
    ∧ (advance_cycle r).nextFence = r.nextFence
    ∧ (advance_cycle r).released = r.released
    ∧ ∀ j, slotFence (advance_cycle r) j = slotFence r j :=
  ⟨rfl, rfl, rfl, rfl, rfl, rfl, rfl, fun _ => rfl⟩

/-- Claim C7: after a move the destination holds exactly the state the source
had (same buffer handles and mapped pointers, observable through `getId` and
`get`), the source is left in the empty placeholder state, and destroying
both releases each device buffer exactly once.  (Non-copyability is a C++
type-level prohibition with no behavioral content to model.) -/
theorem C7_move_ownership (b : PersistentBuffer) :
    (moveFrom b).1 = b
    ∧ (moveFrom b).2 = emptyPB
    ∧ (∀ i, getId (moveFrom b).1 i = getId b i)
    ∧ (∀ i, get (moveFrom b).1 i = get b i)
    ∧ getBufferCount (moveFrom b).2 = 0
    ∧ releasedBuffers (moveFrom b).1 ++ releasedBuffers (moveFrom b).2
      = releasedBuffers b := by
  refine ⟨rfl, rfl, fun _ => rfl, fun _ => rfl, rfl, ?_⟩
  show releasedBuffers b ++ [] = releasedBuffers b
  exact List.append_nil _

/-! ### Helper lemmas about the floating-point wrap -/

theorem floor_wrapped_zero (a s : ℚ) (hs : s ≠ 0) :
    ⌊(a - s * (⌊a / s⌋ : ℤ)) / s⌋ = 0 := by
  have h : (a - s * (⌊a / s⌋ : ℤ)) / s = Int.fract (a / s) := by
    rw [← Int.self_sub_floor, sub_div, mul_comm, mul_div_assoc, div_self hs,
      mul_one]
  rw [h, Int.floor_fract]

/-- Claim C8 fails on the code: at `v = (3, 3)` and `s = 2` the claimed
componentwise values `v.x - s * floor(v.x / s) = v.y - s * floor(v.x / s) = 1`
are not what `v % s` produces — `operator%` returns `(3, 3)` unchanged,
because `operator%=` takes its left operand by value, so the wrapped vector it
computes and returns is discarded by `lhs %= rhs; return lhs;`. -/
theorem C8_counterexample :
    ¬ ((mod2 ⟨3, 3⟩ 2).x = 3 - 2 * ((⌊(3 : ℚ) / 2⌋ : ℤ) : ℚ)
       ∧ (mod2 ⟨3, 3⟩ 2).y = 3 - 2 * ((⌊(3 : ℚ) / 2⌋ : ℤ) : ℚ)) := by
  have h32 : ⌊(3 : ℚ) / 2⌋ = 1 := by
    rw [Int.floor_eq_iff]
    norm_num
  intro h
  have hx := h.1
  rw [h32] at hx
  norm_num [mod2] at hx

/-- Claim C8 (amended): `operator%` returns its left operand unchanged
(`operator%=` takes the vector by value, so the computed wrap is discarded).
The value computed and returned by the floating-point `operator%=` itself has
x component `v.x - s * floor(v.x / s)`, but its y component uses the quotient
of the already-updated x component, `v.y - s * floor(x1 / s)` with
`x1 = v.x - s * floor(v.x / s)` — in exact arithmetic this leaves y unchanged
whenever `s ≠ 0`; the z and w components use their own values. -/
theorem C8_mod_amended :
    (∀ (v : _baseVec2 ℚ) (s : ℚ), mod2 v s = v)
    ∧ (∀ (v : _baseVec3 ℚ) (s : ℚ), mod3 v s = v)
    ∧ (∀ (v : _baseVec4 ℚ) (s : ℚ), mod4 v s = v)
    ∧ (∀ (v : _baseVec2 ℚ) (s : ℚ),
        (modAssign2 v s).x = v.x - s * (⌊v.x / s⌋ : ℤ)
        ∧ (modAssign2 v s).y
          = v.y - s * (⌊(v.x - s * (⌊v.x / s⌋ : ℤ)) / s⌋ : ℤ))
    ∧ (∀ (v : _baseVec2 ℚ) (s : ℚ), s ≠ 0 → (modAssign2 v s).y = v.y)
    ∧ (∀ (v : _baseVec3 ℚ) (s : ℚ),
        (modAssign3 v s).x = v.x - s * (⌊v.x / s⌋ : ℤ)
        ∧ (s ≠ 0 → (modAssign3 v s).y = v.y)
        ∧ (modAssign3 v s).z = v.z - s * (⌊v.z / s⌋ : ℤ))
    ∧ (∀ (v : _baseVec4 ℚ) (s : ℚ),
        (modAssign4 v s).x = v.x - s * (⌊v.x / s⌋ : ℤ)
        ∧ (s ≠ 0 → (modAssign4 v s).y = v.y)
        ∧ (modAssign4 v s).z = v.z - s * (⌊v.z / s⌋ : ℤ)
        ∧ (modAssign4 v s).w = v.w - s * (⌊v.w / s⌋ : ℤ)) := by
  have hy : ∀ (a b s : ℚ), s ≠ 0 →
      b - s * (⌊(a - s * (⌊a / s⌋ : ℤ)) / s⌋ : ℤ) = b := by
    intro a b s hs
    rw [floor_wrapped_zero a s hs]
    simp
  refine ⟨fun v s => rfl, fun v s => rfl, fun v s => rfl,
    fun v s => ⟨rfl, rfl⟩,
    fun v s hs => hy v.x v.y s hs,
    fun v s => ⟨rfl, fun hs => hy v.x v.y s hs, rfl⟩,
    fun v s => ⟨rfl, fun hs => hy v.x v.y s hs, rfl, rfl⟩⟩

theorem C8_mod_amended_witness :
    mod2 ⟨3, 3⟩ 2 = ⟨3, 3⟩
    ∧ (modAssign2 ⟨3, 3⟩ 2).y = 3
    ∧ (modAssign3 ⟨3, 3, 3⟩ 2).y = 3
    ∧ (modAssign4 ⟨3, 3, 3, 3⟩ 2).y = 3 :=
  ⟨C8_mod_amended.1 ⟨3, 3⟩ 2,
   C8_mod_amended.2.2.2.2.1 ⟨3, 3⟩ 2 (by norm_num),
   (C8_mod_amended.2.2.2.2.2.1 ⟨3, 3, 3⟩ 2).2.1 (by norm_num),
   (C8_mod_amended.2.2.2.2.2.2 ⟨3, 3, 3, 3⟩ 2).2.1 (by norm_num)⟩

/-! ### Helper lemmas about normalize -/

theorem eps_pos : 0 < eps := by norm_num [eps]

theorem lengthSqr2_nonneg (v : _baseVec2 ℝ) : 0 ≤ lengthSqr2 v :=
  add_nonneg (mul_self_nonneg _) (mul_self_nonneg _)

theorem lengthSqr3_nonneg (v : _baseVec3 ℝ) : 0 ≤ lengthSqr3 v :=
  add_nonneg (add_nonneg (mul_self_nonneg _) (mul_self_nonneg _))
    (mul_self_nonneg _)

theorem lengthSqr4_nonneg (v : _baseVec4 ℝ) : 0 ≤ lengthSqr4 v :=
  add_nonneg (add_nonneg (add_nonneg (mul_self_nonneg _) (mul_self_nonneg _))
    (mul_self_nonneg _)) (mul_self_nonneg _)

theorem denom2_pos (v : _baseVec2 ℝ) : 0 < length2 v + eps :=
  add_pos_of_nonneg_of_pos (Real.sqrt_nonneg _) eps_pos

theorem denom3_pos (v : _baseVec3 ℝ) : 0 < length3 v + eps :=
  add_pos_of_nonneg_of_pos (Real.sqrt_nonneg _) eps_pos

theorem denom4_pos (v : _baseVec4 ℝ) : 0 < length4 v + eps :=
  add_pos_of_nonneg_of_pos (Real.sqrt_nonneg _) eps_pos

theorem length2_div_scalar (v : _baseVec2 ℝ) (d : ℝ) (hd : 0 < d) :
    length2 ⟨v.x / d, v.y / d⟩ = length2 v / d := by
  unfold length2 lengthSqr2
  have h : v.x / d * (v.x / d) + v.y / d * (v.y / d)
      = (v.x * v.x + v.y * v.y) / (d * d) := by
    field_simp
  rw [show ((⟨v.x / d, v.y / d⟩ : _baseVec2 ℝ).x * (⟨v.x / d, v.y / d⟩ :
      _baseVec2 ℝ).x + (⟨v.x / d, v.y / d⟩ : _baseVec2 ℝ).y * (⟨v.x / d,
      v.y / d⟩ : _baseVec2 ℝ).y) = (v.x * v.x + v.y * v.y) / (d * d) from h,
    Real.sqrt_div (show (0 : ℝ) ≤ v.x * v.x + v.y * v.y from
      add_nonneg (mul_self_nonneg _) (mul_self_nonneg _)) (d * d),
    Real.sqrt_mul_self hd.le]

theorem length3_div_scalar (v : _baseVec3 ℝ) (d : ℝ) (hd : 0 < d) :
    length3 ⟨v.x / d, v.y / d, v.z / d⟩ = length3 v / d := by
  unfold length3 lengthSqr3
  have h : v.x / d * (v.x / d) + v.y / d * (v.y / d) + v.z / d * (v.z / d)
      = (v.x * v.x + v.y * v.y + v.z * v.z) / (d * d) := by
    field_simp
  rw [show ((⟨v.x / d, v.y / d, v.z / d⟩ : _baseVec3 ℝ).x * (⟨v.x / d, v.y / d,
      v.z / d⟩ : _baseVec3 ℝ).x + (⟨v.x / d, v.y / d, v.z / d⟩ :
      _baseVec3 ℝ).y * (⟨v.x / d, v.y / d, v.z / d⟩ : _baseVec3 ℝ).y +
      (⟨v.x / d, v.y / d, v.z / d⟩ : _baseVec3 ℝ).z * (⟨v.x / d, v.y / d,
      v.z / d⟩ : _baseVec3 ℝ).z)
      = (v.x * v.x + v.y * v.y + v.z * v.z) / (d * d) from h,
    Real.sqrt_div (show (0 : ℝ) ≤ v.x * v.x + v.y * v.y + v.z * v.z from
      add_nonneg (add_nonneg (mul_self_nonneg _) (mul_self_nonneg _))
        (mul_self_nonneg _)) (d * d),
    Real.sqrt_mul_self hd.le]

theorem length4_div_scalar (v : _baseVec4 ℝ) (d : ℝ) (hd : 0 < d) :
    length4 ⟨v.x / d, v.y / d, v.z / d, v.w / d⟩ = length4 v / d := by
  unfold length4 lengthSqr4
  have h : v.x / d * (v.x / d) + v.y / d * (v.y / d) + v.z / d * (v.z / d)
        + v.w / d * (v.w / d)
      = (v.x * v.x + v.y * v.y + v.z * v.z + v.w * v.w) / (d * d) := by
    field_simp
  rw [show ((⟨v.x / d, v.y / d, v.z / d, v.w / d⟩ : _baseVec4 ℝ).x *
      (⟨v.x / d, v.y / d, v.z / d, v.w / d⟩ : _baseVec4 ℝ).x +
      (⟨v.x / d, v.y / d, v.z / d, v.w / d⟩ : _baseVec4 ℝ).y *
      (⟨v.x / d, v.y / d, v.z / d, v.w / d⟩ : _baseVec4 ℝ).y +
      (⟨v.x / d, v.y / d, v.z / d, v.w / d⟩ : _baseVec4 ℝ).z *
      (⟨v.x / d, v.y / d, v.z / d, v.w / d⟩ : _baseVec4 ℝ).z +
      (⟨v.x / d, v.y / d, v.z / d, v.w / d⟩ : _baseVec4 ℝ).w *
      (⟨v.x / d, v.y / d, v.z / d, v.w / d⟩ : _baseVec4 ℝ).w)
      = (v.x * v.x + v.y * v.y + v.z * v.z + v.w * v.w) / (d * d) from h,
    Real.sqrt_div (show (0 : ℝ) ≤ v.x * v.x + v.y * v.y + v.z * v.z
        + v.w * v.w from
      add_nonneg (add_nonneg (add_nonneg (mul_self_nonneg _)
        (mul_self_nonneg _)) (mul_self_nonneg _)) (mul_self_nonneg _)) (d * d),
    Real.sqrt_mul_self hd.le]

theorem length2_normalize (v : _baseVec2 ℝ) :
    length2 (normalize2 v) = length2 v / (length2 v + eps) :=
  length2_div_scalar v (length2 v + eps) (denom2_pos v)

theorem length3_normalize (v : _baseVec3 ℝ) :
    length3 (normalize3 v) = length3 v / (length3 v + eps) :=
  length3_div_scalar v (length3 v + eps) (denom3_pos v)

theorem length4_normalize (v : _baseVec4 ℝ) :
    length4 (normalize4 v) = length4 v / (length4 v + eps) :=
  length4_div_scalar v (length4 v + eps) (denom4_pos v)

theorem vec2_eq_zero (v : _baseVec2 ℝ) (hx : v.x = 0) (hy : v.y = 0) :
    v = ⟨0, 0⟩ := by
  cases v with
  | mk a b => exact congrArg₂ _baseVec2.mk hx hy

theorem vec3_eq_zero (v : _baseVec3 ℝ) (hx : v.x = 0) (hy : v.y = 0)
    (hz : v.z = 0) : v = ⟨0, 0, 0⟩ := by
  cases v with
  | mk a b c =>
    simp only [_baseVec3.mk.injEq]
    exact ⟨hx, hy, hz⟩

theorem vec4_eq_zero (v : _baseVec4 ℝ) (hx : v.x = 0) (hy : v.y = 0)
    (hz : v.z = 0) (hw : v.w = 0) : v = ⟨0, 0, 0, 0⟩ := by
  cases v with
  | mk a b c d =>
    simp only [_baseVec4.mk.injEq]
    exact ⟨hx, hy, hz, hw⟩

theorem lengthSqr2_pos (v : _baseVec2 ℝ) (h : v ≠ ⟨0, 0⟩) :
    0 < lengthSqr2 v := by
  unfold lengthSqr2
  have hxx := mul_self_nonneg v.x
  have hyy := mul_self_nonneg v.y
  rcases eq_or_ne v.x 0 with hx | hx
  · rcases eq_or_ne v.y 0 with hy | hy
    · exact absurd (vec2_eq_zero v hx hy) h
    · have := mul_self_pos.mpr hy
      linarith
  · have := mul_self_pos.mpr hx
    linarith

theorem lengthSqr3_pos (v : _baseVec3 ℝ) (h : v ≠ ⟨0, 0, 0⟩) :
    0 < lengthSqr3 v := by
  unfold lengthSqr3
  have hxx := mul_self_nonneg v.x
  have hyy := mul_self_nonneg v.y
  have hzz := mul_self_nonneg v.z
  rcases eq_or_ne v.x 0 with hx | hx
  · rcases eq_or_ne v.y 0 with hy | hy
    · rcases eq_or_ne v.z 0 with hz | hz
      · exact absurd (vec3_eq_zero v hx hy hz) h
      · have := mul_self_pos.mpr hz
        linarith
    · have := mul_self_pos.mpr hy
      linarith
  · have := mul_self_pos.mpr hx
    linarith

theorem lengthSqr4_pos (v : _baseVec4 ℝ) (h : v ≠ ⟨0, 0, 0, 0⟩) :
    0 < lengthSqr4 v := by
  unfold lengthSqr4
  have hxx := mul_self_nonneg v.x
  have hyy := mul_self_nonneg v.y
  have hzz := mul_self_nonneg v.z
  have hww := mul_self_nonneg v.w
  rcases eq_or_ne v.x 0 with hx | hx
  · rcases eq_or_ne v.y 0 with hy | hy
    · rcases eq_or_ne v.z 0 with hz | hz
      · rcases eq_or_ne v.w 0 with hw | hw
        · exact absurd (vec4_eq_zero v hx hy hz hw) h
        · have := mul_self_pos.mpr hw
          linarith
      · have := mul_self_pos.mpr hz
        linarith
    · have := mul_self_pos.mpr hy
      linarith
  · have := mul_self_pos.mpr hx
    linarith

theorem length2_pos (v : _baseVec2 ℝ) (h : v ≠ ⟨0, 0⟩) : 0 < length2 v :=
  Real.sqrt_pos.mpr (lengthSqr2_pos v h)

theorem length3_pos (v : _baseVec3 ℝ) (h : v ≠ ⟨0, 0, 0⟩) : 0 < length3 v :=
  Real.sqrt_pos.mpr (lengthSqr3_pos v h)

theorem length4_pos (v : _baseVec4 ℝ) (h : v ≠ ⟨0, 0, 0, 0⟩) : 0 < length4 v :=
  Real.sqrt_pos.mpr (lengthSqr4_pos v h)

/-- Claim C9: `normalize` divides each component by `length() + 0.000001`.
The divisor is strictly positive (never zero), the zero vector normalizes to
the zero vector, and a nonzero vector normalizes to a vector whose length is
`length / (length + 0.000001)` — strictly between 0 and 1, so slightly below
1 rather than exactly 1. -/
theorem C9_normalize_safe :
    (∀ v : _baseVec2 ℝ, 0 < length2 v + eps)
    ∧ (∀ v : _baseVec3 ℝ, 0 < length3 v + eps)
    ∧ (∀ v : _baseVec4 ℝ, 0 < length4 v + eps)
    ∧ normalize2 ⟨0, 0⟩ = ⟨0, 0⟩
    ∧ normalize3 ⟨0, 0, 0⟩ = ⟨0, 0, 0⟩
    ∧ normalize4 ⟨0, 0, 0, 0⟩ = ⟨0, 0, 0, 0⟩
    ∧ (∀ v : _baseVec2 ℝ,
        length2 (normalize2 v) = length2 v / (length2 v + eps))
    ∧ (∀ v : _baseVec3 ℝ,
        length3 (normalize3 v) = length3 v / (length3 v + eps))
    ∧ (∀ v : _baseVec4 ℝ,
        length4 (normalize4 v) = length4 v / (length4 v + eps))
    ∧ (∀ v : _baseVec2 ℝ, v ≠ ⟨0, 0⟩ →
        0 < length2 (normalize2 v) ∧ length2 (normalize2 v) < 1)
    ∧ (∀ v : _baseVec3 ℝ, v ≠ ⟨0, 0, 0⟩ →
        0 < length3 (normalize3 v) ∧ length3 (normalize3 v) < 1)
    ∧ (∀ v : _baseVec4 ℝ, v ≠ ⟨0, 0, 0, 0⟩ →
        0 < length4 (normalize4 v) ∧ length4 (normalize4 v) < 1) := by
  refine ⟨fun v => denom2_pos v, fun v => denom3_pos v, fun v => denom4_pos v,
    by simp [normalize2], by simp [normalize3], by simp [normalize4],
    fun v => length2_normalize v, fun v => length3_normalize v,
    fun v => length4_normalize v, ?_, ?_, ?_⟩
  · intro v h
    rw [length2_normalize v]
    exact ⟨div_pos (length2_pos v h) (denom2_pos v),
      (div_lt_one (denom2_pos v)).mpr (lt_add_of_pos_right _ eps_pos)⟩
  · intro v h
    rw [length3_normalize v]
    exact ⟨div_pos (length3_pos v h) (denom3_pos v),
      (div_lt_one (denom3_pos v)).mpr (lt_add_of_pos_right _ eps_pos)⟩
  · intro v h
    rw [length4_normalize v]
    exact ⟨div_pos (length4_pos v h) (denom4_pos v),
      (div_lt_one (denom4_pos v)).mpr (lt_add_of_pos_right _ eps_pos)⟩

theorem C9_normalize_safe_witness :
    (0 < length2 (normalize2 ⟨3, 4⟩) ∧ length2 (normalize2 ⟨3, 4⟩) < 1)
    ∧ (0 < length3 (normalize3 ⟨1, 2, 2⟩)
       ∧ length3 (normalize3 ⟨1, 2, 2⟩) < 1)
    ∧ (0 < length4 (normalize4 ⟨1, 0, 0, 0⟩)
       ∧ length4 (normalize4 ⟨1, 0, 0, 0⟩) < 1) :=
  ⟨C9_normalize_safe.2.2.2.2.2.2.2.2.2.1 ⟨3, 4⟩
    (fun h => (by norm_num : (3 : ℝ) ≠ 0) (congrArg _baseVec2.x h)),
   C9_normalize_safe.2.2.2.2.2.2.2.2.2.2.1 ⟨1, 2, 2⟩
    (fun h => (by norm_num : (1 : ℝ) ≠ 0) (congrArg _baseVec3.x h)),
   C9_normalize_safe.2.2.2.2.2.2.2.2.2.2.2 ⟨1, 0, 0, 0⟩
    (fun h => (by norm_num : (1 : ℝ) ≠ 0) (congrArg _baseVec4.x h))⟩

/-- A concrete camera with positive trauma, for instantiating the tick
theorem. -/
def camShaking : Camera2DExtended :=
  { offset := ⟨0, 0⟩, target := ⟨0, 0⟩, rotation := 0, zoom := 1
    trauma := 1 / 100, rotationTrauma := 0, offsetTrauma := ⟨0, 0⟩ }

/-- A concrete camera with trauma already at zero. -/
def camIdle : Camera2DExtended :=
  { offset := ⟨1, 2⟩, target := ⟨3, 4⟩, rotation := 5, zoom := 2
    trauma := 0, rotationTrauma := 7, offsetTrauma := ⟨8, 9⟩ }

/-- Claim C10: `tick()` never drives trauma below zero.  When `trauma > 0`
the call sets `trauma` to `max(0, trauma - 0.02)` and recomputes the shake
fields from the updated trauma, leaving the remaining camera fields alone;
when `trauma ≤ 0` the call leaves every field unchanged.  In particular a
nonnegative trauma stays nonnegative. -/
theorem C10_tick_trauma (c : Camera2DExtended) (nR nX nY : ℚ) :
    (0 < c.trauma →
       (tick c nR nX nY).trauma = max 0 (c.trauma - 2 / 100)
       ∧ (tick c nR nX nY).rotationTrauma
         = max 0 (c.trauma - 2 / 100) * max 0 (c.trauma - 2 / 100) * nR
       ∧ (tick c nR nX nY).offsetTrauma
         = ⟨max 0 (c.trauma - 2 / 100) * max 0 (c.trauma - 2 / 100) * 30 * nX,
            max 0 (c.trauma - 2 / 100) * max 0 (c.trauma - 2 / 100) * 30 * nY⟩
       ∧ (tick c nR nX nY).offset = c.offset
       ∧ (tick c nR nX nY).target = c.target
       ∧ (tick c nR nX nY).rotation = c.rotation
       ∧ (tick c nR nX nY).zoom = c.zoom)
    ∧ (c.trauma ≤ 0 → tick c nR nX nY = c)
    ∧ (0 ≤ (tick c nR nX nY).trauma ∨ (tick c nR nX nY).trauma = c.trauma) := by
  by_cases h : 0 < c.trauma
  · refine ⟨fun _ => ?_, fun h2 => absurd h (not_lt.mpr h2), Or.inl ?_⟩
    · unfold tick
      rw [if_pos h]
      exact ⟨rfl, rfl, rfl, rfl, rfl, rfl, rfl⟩
    · unfold tick
      rw [if_pos h]
      exact le_max_left 0 _
  · refine ⟨fun h1 => absurd h1 h, fun _ => ?_, Or.inr ?_⟩
    · unfold tick
      rw [if_neg h]
    · unfold tick
      rw [if_neg h]

theorem C10_tick_trauma_witness :
    (tick camShaking 1 2 3).trauma = max 0 (1 / 100 - 2 / 100)
    ∧ tick camIdle 1 2 3 = camIdle
    ∧ (0 ≤ (tick camShaking 1 2 3).trauma
       ∨ (tick camShaking 1 2 3).trauma = camShaking.trauma) :=
  ⟨((C10_tick_trauma camShaking 1 2 3).1 (by norm_num [camShaking])).1,
   (C10_tick_trauma camIdle 1 2 3).2.1 (by norm_num [camIdle]),
   (C10_tick_trauma camShaking 1 2 3).2.2⟩

end bowser_util
